import Mathlib

/-!
Shallow embedding of `src/main.py` (JSON-extraction pipeline).

The repository processes document-extraction records: classifies each raw
record as paystub / w2 / 1120, extracts fields from a recursive label tree,
normalizes date strings, validates required fields, and groups/deduplicates
canonical records by an identity key.

Python strings are modelled as Lean `String`; Python dicts with string keys
as insertion-ordered association lists `List (String × String)`; the
external `dateutil` fallback parser (a third-party library, not repository
code) is a parameter `fallback : String → Option String` returning `none`
when `dateutil.parser.parse` raises and `some` of the `strftime "%m/%d/%Y"`
rendering when it succeeds.
-/

namespace JsonExtraction

/-! ### String helpers (Python `str.strip`, `str.lower`, `in`, f-strings) -/

/-- Python `str.strip()` on the character list: drop whitespace from both
ends. -/
def trimChars (l : List Char) : List Char :=
  List.rdropWhile Char.isWhitespace (List.dropWhile Char.isWhitespace l)

/-- Python `str.strip()`. -/
def strip (s : String) : String := ⟨trimChars s.data⟩

/-- Python `str.lower()` (ASCII case folding; all needles scanned by the
program are ASCII). -/
def lowerStr (s : String) : String := ⟨s.data.map Char.toLower⟩

/-- Python `needle in hay` (contiguous substring test). -/
def containsSub (needle hay : String) : Bool :=
  decide (needle.data <:+: hay.data)

/-- Numeric value of a decimal digit character. -/
def charVal (c : Char) : Nat := c.toNat - 48

/-- Value of a digit string read in base 10 (Python `int(...)` on the
digit groups captured by the regexes). -/
def toNum (cs : List Char) : Nat :=
  cs.foldl (fun n c => 10 * n + charVal c) 0

/-- Decimal rendering, fuel-driven so it reduces by `rfl`.  Models Python
`f"{n}"` / `%d`. -/
def reprAux : Nat → Nat → List Char
  | 0, _ => []
  | fuel + 1, n =>
    if n < 10 then [Nat.digitChar n]
    else reprAux fuel (n / 10) ++ [Nat.digitChar (n % 10)]

/-- Decimal rendering of a natural number (Python `f"{n}"`). -/
def natStr (n : Nat) : String := ⟨reprAux (n + 1) n⟩

/-- Python `f"{n:02d}"`: zero-pad to two digits. -/
def pad2 (n : Nat) : String :=
  if n < 10 then "0" ++ natStr n else natStr n

/-- Python `f"{month:02d}/{day:02d}/{year}"`, the output shape of every
date-normalizer pattern (`src/main.py` lines 40, 47, 57, 66, 73). -/
def formatMMDDYYYY (m d y : Nat) : String :=
  pad2 m ++ "/" ++ pad2 d ++ "/" ++ natStr y

/-! ### Date normalizer (`parse_date`, `src/main.py` lines 9–85)

Each regex of the source is embedded as a deterministic scanner over the
character list.  All the regexes are anchored (`^...$`) and every repeated
class (`\d`, `\w`, `\s`) is disjoint from the character that must follow
it, so greedy scanning without backtracking is equivalent to the regex. -/

/-- Split off the maximal leading run satisfying `p`. -/
def spanOf (p : Char → Bool) (cs : List Char) : List Char × List Char :=
  (cs.takeWhile p, cs.dropWhile p)

/-- Python `\w` (ASCII range: letters, digits, underscore). -/
def isWordChar (c : Char) : Bool := c.isAlphanum || c == '_'

/-- Regex of patterns 1 and 2 (`src/main.py` lines 36, 43): anchored
numeric triple `\d{1,2}`, separator `/` or `-`, `\d{1,2}`, separator,
`\d{4}`. -/
def matchTriple (cs : List Char) : Option (Nat × Nat × Nat) :=
  let (a, r1) := spanOf Char.isDigit cs
  if 1 ≤ a.length ∧ a.length ≤ 2 then
    match r1 with
    | s1 :: r2 =>
      if s1 = '/' ∨ s1 = '-' then
        let (b, r3) := spanOf Char.isDigit r2
        if 1 ≤ b.length ∧ b.length ≤ 2 then
          match r3 with
          | s2 :: r4 =>
            if s2 = '/' ∨ s2 = '-' then
              let (c, r5) := spanOf Char.isDigit r4
              if c.length = 4 ∧ r5 = [] then some (toNum a, toNum b, toNum c)
              else none
            else none
          | [] => none
        else none
      else none
    | [] => none
  else none

/-- Regex `^(\d{1,2})[-](\w+)[-](\d{4})$` of pattern 3 (`src/main.py`
line 50). -/
def matchDayWordYear (cs : List Char) : Option (Nat × String × Nat) :=
  let (a, r1) := spanOf Char.isDigit cs
  if 1 ≤ a.length ∧ a.length ≤ 2 then
    match r1 with
    | s1 :: r2 =>
      if s1 = '-' then
        let (w, r3) := spanOf isWordChar r2
        if 1 ≤ w.length then
          match r3 with
          | s2 :: r4 =>
            if s2 = '-' then
              let (c, r5) := spanOf Char.isDigit r4
              if c.length = 4 ∧ r5 = [] then some (toNum a, ⟨w⟩, toNum c)
              else none
            else none
          | [] => none
        else none
      else none
    | [] => none
  else none

/-- Regex `^(\w+)\s+(\d{1,2}),?\s+(\d{4})$` of pattern 4 (`src/main.py`
line 60). -/
def matchWordDayYear (cs : List Char) : Option (String × Nat × Nat) :=
  let (w, r1) := spanOf isWordChar cs
  if 1 ≤ w.length then
    let (sp1, r2) := spanOf Char.isWhitespace r1
    if 1 ≤ sp1.length then
      let (a, r3) := spanOf Char.isDigit r2
      if 1 ≤ a.length ∧ a.length ≤ 2 then
        let r4 := match r3 with
                  | ',' :: rest => rest
                  | other => other
        let (sp2, r5) := spanOf Char.isWhitespace r4
        if 1 ≤ sp2.length then
          let (c, r6) := spanOf Char.isDigit r5
          if c.length = 4 ∧ r6 = [] then some (⟨w⟩, toNum a, toNum c)
          else none
        else none
      else none
    else none
  else none

/-- Regex `^(\d{4})[-](\d{1,2})[-](\d{1,2})$` of pattern 5 (`src/main.py`
line 69). -/
def matchISO (cs : List Char) : Option (Nat × Nat × Nat) :=
  let (a, r1) := spanOf Char.isDigit cs
  if a.length = 4 then
    match r1 with
    | s1 :: r2 =>
      if s1 = '-' then
        let (b, r3) := spanOf Char.isDigit r2
        if 1 ≤ b.length ∧ b.length ≤ 2 then
          match r3 with
          | s2 :: r4 =>
            if s2 = '-' then
              let (c, r5) := spanOf Char.isDigit r4
              if 1 ≤ c.length ∧ c.length ≤ 2 ∧ r5 = [] then
                some (toNum a, toNum b, toNum c)
              else none
            else none
          | [] => none
        else none
      else none
    | [] => none
  else none

/-- The `month_names` dictionary (`src/main.py` lines 19–32). -/
def month_names : List (String × Nat) :=
  [("january", 1), ("jan", 1),
   ("february", 2), ("feb", 2),
   ("march", 3), ("mar", 3),
   ("april", 4), ("apr", 4),
   ("may", 5),
   ("june", 6), ("jun", 6),
   ("july", 7), ("jul", 7),
   ("august", 8), ("aug", 8),
   ("september", 9), ("sep", 9), ("sept", 9),
   ("october", 10), ("oct", 10),
   ("november", 11), ("nov", 11),
   ("december", 12), ("dec", 12)]

/-- Python `month_str in month_names` / `month_names[month_str]`. -/
def monthLookup (s : String) : Option Nat :=
  (month_names.find? (fun p => p.1 == s)).map (·.2)

/-- Pattern 1 (`src/main.py` lines 36–40): numeric triple read as
MM-DD-YYYY with range guard on all three components. -/
def pat1 (t : String) : Option String :=
  match matchTriple t.data with
  | some (m, d, y) =>
    if 1 ≤ m ∧ m ≤ 12 ∧ 1 ≤ d ∧ d ≤ 31 ∧ 1000 ≤ y ∧ y ≤ 9999 then
      some (formatMMDDYYYY m d y)
    else none
  | none => none

/-- Pattern 2 (`src/main.py` lines 43–47): the same numeric triple read as
DD-MM-YYYY. -/
def pat2 (t : String) : Option String :=
  match matchTriple t.data with
  | some (d, m, y) =>
    if 1 ≤ m ∧ m ≤ 12 ∧ 1 ≤ d ∧ d ≤ 31 ∧ 1000 ≤ y ∧ y ≤ 9999 then
      some (formatMMDDYYYY m d y)
    else none
  | none => none

/-- Pattern 3 (`src/main.py` lines 50–57): `DD-MonthName-YYYY`.  The month
must be a known name and the day in 1..31; the year is used unchecked. -/
def pat3 (t : String) : Option String :=
  match matchDayWordYear t.data with
  | some (d, w, y) =>
    match monthLookup (lowerStr w) with
    | some m => if 1 ≤ d ∧ d ≤ 31 then some (formatMMDDYYYY m d y) else none
    | none => none
  | none => none

/-- Pattern 4 (`src/main.py` lines 60–66): `MonthName DD[,] YYYY`.  The
month must be a known name and the day in 1..31; the year is used
unchecked. -/
def pat4 (t : String) : Option String :=
  match matchWordDayYear t.data with
  | some (w, d, y) =>
    match monthLookup (lowerStr w) with
    | some m => if 1 ≤ d ∧ d ≤ 31 then some (formatMMDDYYYY m d y) else none
    | none => none
  | none => none

/-- Pattern 5 (`src/main.py` lines 69–73): ISO `YYYY-MM-DD` with range
guard on month and day only; the year is used unchecked. -/
def pat5 (t : String) : Option String :=
  match matchISO t.data with
  | some (y, m, d) =>
    if 1 ≤ m ∧ m ≤ 12 ∧ 1 ≤ d ∧ d ≤ 31 then some (formatMMDDYYYY m d y)
    else none
  | none => none

/-- `parse_date` (`src/main.py` lines 9–85).  `fallback` models the
external `dateutil` parser (line 77–81): `none` when it raises, in which
case the stripped input is returned unchanged (line 85). -/
def parse_date (fallback : String → Option String) (s : String) : String :=
  if s = "" ∨ s = "N/A" then "N/A"
  else
    let t := strip s
    match pat1 t with
    | some r => r
    | none =>
      match pat2 t with
      | some r => r
      | none =>
        match pat3 t with
        | some r => r
        | none =>
          match pat4 t with
          | some r => r
          | none =>
            match pat5 t with
            | some r => r
            | none =>
              match fallback t with
              | some r => r
              | none => t

/-- `parse_date` with the pattern-2 branch removed (the comparison object
of the spec's claim that rule 2 is unreachable). -/
def parse_date_no2 (fallback : String → Option String) (s : String) : String :=
  if s = "" ∨ s = "N/A" then "N/A"
  else
    let t := strip s
    match pat1 t with
    | some r => r
    | none =>
      match pat3 t with
      | some r => r
      | none =>
        match pat4 t with
        | some r => r
        | none =>
          match pat5 t with
          | some r => r
          | none =>
            match fallback t with
            | some r => r
            | none => t

/-! ### Data model (`RawRecord` shape consumed by `src/main.py`)

Optional JSON keys are modelled as `Option`; a `Label`'s `Values` entries
carry the wrapper's `Value` key (`none` when the key is absent or null,
which `value_item.get("Value", "N/A")` and `get_field_value` send to the
same sentinel). -/

/-- A Label node: `LabelName`, `Values` (each entry the wrapper's `Value`),
and recursive `ChildLabels`. -/
inductive Label where
  | mk (labelName : Option String) (values : List (Option String))
       (childLabels : List Label)

/-- `LabelName` accessor. -/
def Label.labelName : Label → Option String
  | .mk n _ _ => n

/-- `Values` accessor. -/
def Label.values : Label → List (Option String)
  | .mk _ v _ => v

/-- `ChildLabels` accessor. -/
def Label.childLabels : Label → List Label
  | .mk _ _ c => c

/-- A Skill entry of `Summary`: `SkillName` and `Labels`. -/
structure Skill where
  skillName : Option String
  labels : List Label

/-- The `Meta` object: `FileName` and `Type`. -/
structure MetaInfo where
  fileName : Option String
  typeStr : Option String

/-- A raw input record: optional `Meta`, optional `Title`, `Summary`. -/
structure RawRecord where
  meta : Option MetaInfo
  title : Option String
  summary : List Skill

/-- A Python string-keyed dict in insertion order (the canonical record
`base_data`). -/
abbrev Doc := List (String × String)

/-- Python `doc[k]` as an optional lookup (first binding wins; dicts have
unique keys). -/
def dictGet (d : Doc) (k : String) : Option String :=
  (List.find? (fun p => p.1 == k) d).map (·.2)

/-- Python `doc[k] = v`: replace in place when the key exists, else append. -/
def dictSet (d : Doc) (k : String) (v : String) : Doc :=
  match d with
  | [] => [(k, v)]
  | (k', v') :: t => if k' = k then (k, v) :: t else (k', v') :: dictSet t k v

/-! ### Classifier, cleaner, extractor -/

/-- `get_field_value` (`src/main.py` lines 244–248): trim, and send
empty/blank/sentinel spellings to `"N/A"`. -/
def get_field_value (value : String) : String :=
  if value = "" ∨ strip value ∈ ["", " ", "N/A", "null", "None"] then "N/A"
  else strip value

/-- `Meta.Type` with Python's `.get("Meta", {}).get("Type", "")` defaults. -/
def metaType (r : RawRecord) : String :=
  ((r.meta.bind MetaInfo.typeStr).getD "")

/-- `Title` with Python's `.get` default. -/
def titleOf (r : RawRecord) : String := r.title.getD ""

/-- The w2 indicator scan of `identify_document_type` (`src/main.py`
lines 214–215). -/
def hasW2Indicator (r : RawRecord) : Bool :=
  ["w2", "w-2", "income w-2"].any fun ind =>
    containsSub ind (lowerStr (metaType r)) || containsSub ind (lowerStr (titleOf r))

/-- The 1120 indicator scan of `identify_document_type` (`src/main.py`
lines 218–219). -/
def has1120Indicator (r : RawRecord) : Bool :=
  ["1120", "form 1120"].any fun ind =>
    containsSub ind (lowerStr (metaType r)) || containsSub ind (lowerStr (titleOf r))

/-- Per-skill substring classification (`src/main.py` lines 223–229). -/
def skillSubstringType (sk : Skill) : Option String :=
  let n := lowerStr (sk.skillName.getD "")
  if containsSub "1120" n then some "1120"
  else if containsSub "w2" n || containsSub "w-2" n then some "w2"
  else if containsSub "paystub" n then some "paystub"
  else none

/-- First skill-name substring match in `Summary` order (`src/main.py`
lines 222–229). -/
def skillSubstringScan (r : RawRecord) : Option String :=
  r.summary.findSome? skillSubstringType

/-- Per-skill exact-name classification (`src/main.py` lines 232–238). -/
def skillExactType (sk : Skill) : Option String :=
  if sk.skillName = some "IC - 1120" then some "1120"
  else if sk.skillName = some "IC - W2" then some "w2"
  else if sk.skillName = some "IC - Paystubs" then some "paystub"
  else none

/-- First exact skill-name match in `Summary` order (`src/main.py`
lines 231–238). -/
def skillExactScan (r : RawRecord) : Option String :=
  r.summary.findSome? skillExactType

/-- `identify_document_type` (`src/main.py` lines 208–242).  The Python
`try`/`except` cannot fire in the typed model; its `except` branch returns
the same `"paystub"` default. -/
def identify_document_type (r : RawRecord) : String :=
  if hasW2Indicator r then "w2"
  else if has1120Indicator r then "1120"
  else
    match skillSubstringScan r with
    | some t => t
    | none =>
      match skillExactScan r with
      | some t => t
      | none => "paystub"

/-- The `valid_values` computation of `extract_from_labels` (`src/main.py`
lines 197–201): clean every value and keep the truthy non-sentinel ones. -/
def validValues (vs : List (Option String)) : List String :=
  (vs.map (fun ov => get_field_value (ov.getD "N/A"))).filter
    (fun v => !(v == "") && !(v == "N/A"))

/-- The write a single visited label performs, if any (`src/main.py`
lines 194–203): its mapped field name and `valid_values[0]`. -/
def labelWrite (label_map : List (String × String)) (l : Label) :
    Option (String × String) :=
  match l.labelName with
  | some n =>
    match (List.find? (fun p => p.1 == n) label_map).map (·.2) with
    | some fld =>
      if l.values ≠ [] then
        match validValues l.values with
        | v :: _ => some (fld, v)
        | [] => none
      else none
    | none => none
  | none => none

/-- Apply one label's write to the in-progress record. -/
def applyLabel (label_map : List (String × String)) (l : Label) (d : Doc) :
    Doc :=
  match labelWrite label_map l with
  | some (fld, v) => dictSet d fld v
  | none => d

/-- `extract_from_labels` (`src/main.py` lines 191–206): depth-first walk,
the label itself before its `ChildLabels`, then the later siblings.
(The Python code recurses only when `ChildLabels` is present and
non-empty; recursing into `[]` is the identity, so the guard is dropped
here without changing the function.) -/
def extract_from_labels (label_map : List (String × String)) :
    List Label → Doc → Doc
  | [], d => d
  | Label.mk n vs cs :: ls, d =>
    extract_from_labels label_map ls
      (extract_from_labels label_map cs
        (applyLabel label_map (Label.mk n vs cs) d))

/-! ### Per-type configuration (`src/main.py` lines 97–143) -/

/-- Required fields for a type (`src/main.py` lines 98, 116, 130). -/
def requiredFields (t : String) : List String :=
  if t = "paystub" then
    ["employee_name", "employer_name", "pay_period_end_date",
     "pay_period_start_date", "year_to_date_earnings"]
  else if t = "w2" then ["employee_name", "employer_name", "year"]
  else ["name", "year", "beginning_tax_year", "ending_tax_year"]

/-- The pre-seeded `"N/A"` defaults merged into `base_data`
(`src/main.py` lines 100–105, 117–121, 131–136). -/
def defaultFields (t : String) : Doc :=
  if t = "paystub" then
    [("employee_name", "N/A"), ("employer_name", "N/A"),
     ("pay_period_end_date", "N/A"), ("pay_period_start_date", "N/A"),
     ("year_to_date_earnings", "N/A")]
  else if t = "w2" then
    [("employee_name", "N/A"), ("employer_name", "N/A"), ("year", "N/A")]
  else
    [("name", "N/A"), ("year", "N/A"), ("beginning_tax_year", "N/A"),
     ("ending_tax_year", "N/A")]

/-- The label-bearing skill expected for a type (`src/main.py` lines 106,
122, 137). -/
def expectedSkillName (t : String) : String :=
  if t = "paystub" then "IC - Paystubs"
  else if t = "w2" then "IC - W2"
  else "2023 1120 Corporation1"

/-- The type's `label_map` (`src/main.py` lines 107–113, 123–127,
138–143). -/
def labelMapFor (t : String) : List (String × String) :=
  if t = "paystub" then
    [("Employee Name", "employee_name"), ("Employer Name", "employer_name"),
     ("Pay Period End Date", "pay_period_end_date"),
     ("Pay Period Start Date", "pay_period_start_date"),
     ("Year to Date Earnings", "year_to_date_earnings")]
  else if t = "w2" then
    [("Employee Name", "employee_name"), ("Employer Name", "employer_name"),
     ("Year", "year")]
  else
    [("Name", "name"), ("1120 Year", "year"),
     ("Beginning Date Of Tax Year", "beginning_tax_year"),
     ("Ending Date Of Tax Year", "ending_tax_year")]

/-- The date fields normalized per type (`src/main.py` lines 173–179). -/
def dateFieldsFor (t : String) : List String :=
  if t = "paystub" then ["pay_period_end_date", "pay_period_start_date"]
  else if t = "1120" then ["beginning_tax_year", "ending_tax_year"]
  else []

/-- `parse_date_fields` (`src/main.py` lines 170–189): normalize each
present, non-sentinel date field in place. -/
def parse_date_fields (fallback : String → Option String) (d : Doc)
    (t : String) : Doc :=
  (dateFieldsFor t).foldl
    (fun d fld =>
      match dictGet d fld with
      | some v => if v ≠ "N/A" then dictSet d fld (parse_date fallback v) else d
      | none => d)
    d

/-- `extract_document_data` (`src/main.py` lines 87–168): classify, seed
`base_data`, extract from the expected skill, normalize dates, validate.
Result `(data, doc_type, error_message)`; the Python outer `except`
(line 167) cannot fire in the typed model. -/
def extract_document_data (fallback : String → Option String)
    (r : RawRecord) (filename : String) :
    Option Doc × String × Option String :=
  let doc_type := identify_document_type r
  let base0 : Doc :=
    [("document_type", doc_type),
     ("filename",
       get_field_value ((r.meta.bind MetaInfo.fileName).getD filename)
         ++ ".json"),
     ("docId", "")] ++ defaultFields doc_type
  let skill_name := expectedSkillName doc_type
  match r.summary.find? (fun sk => sk.skillName == some skill_name) with
  | none => (none, doc_type, some ("Required skill '" ++ skill_name
      ++ "' not found"))
  | some sk =>
    let extracted := extract_from_labels (labelMapFor doc_type) sk.labels base0
    let withDates := parse_date_fields fallback extracted doc_type
    let missing := (requiredFields doc_type).filter
      (fun fld => dictGet withDates fld == some "N/A"
        || dictGet withDates fld == some "")
    if missing ≠ [] then
      (none, doc_type,
       some ("Missing fields: " ++ String.intercalate ", " missing))
    else
      (some (dictSet withDates "status" "original"), doc_type, none)

/-! ### Grouping / dedup (`src/main.py` lines 250–280 and 316–327) -/

/-- The identity fields of the grouping key per type (`src/main.py`
lines 253–273). -/
def identityFields (t : String) : List String :=
  if t = "paystub" then
    ["employee_name", "employer_name", "pay_period_start_date",
     "pay_period_end_date", "year_to_date_earnings"]
  else if t = "w2" then ["employee_name", "employer_name", "year"]
  else ["name", "year", "beginning_tax_year", "ending_tax_year"]

/-- Look up every listed key, failing as soon as one is absent (Python's
sequential `doc[...]` evaluations, whose first `KeyError` aborts the
tuple construction). -/
def lookupAll (d : Doc) : List String → Option (List String)
  | [] => some []
  | f :: fs =>
    match dictGet d f, lookupAll d fs with
    | some v, some vs => some (v :: vs)
    | _, _ => none

/-- `get_grouping_key` (`src/main.py` lines 250–280): the cleaned tuple of
identity-field values; any failed lookup (Python `KeyError`, caught by the
`except`) yields the all-sentinel tuple of the same arity. -/
def get_grouping_key (d : Doc) (t : String) : List String :=
  match lookupAll d (identityFields t) with
  | some vs => vs.map get_field_value
  | none => (identityFields t).map (fun _ => "N/A")

/-- `doc["filename"]` as used by the sort key (`src/main.py` line 323);
pipeline-produced records always carry the key. -/
def filenameOf (d : Doc) : String := (dictGet d "filename").getD ""

/-- The per-record status rewrite of `src/main.py` lines 325–326: drop any
existing `"status"` binding and append the new one. -/
def setStatus (d : Doc) (s : String) : Doc :=
  d.filter (fun p => !(p.1 == "status")) ++ [("status", s)]

/-- Mark a sorted cluster: first record `"original"`, the rest
`"duplicate"` (`src/main.py` lines 324–327). -/
def markGroup (l : List Doc) : List Doc :=
  match l with
  | [] => []
  | h :: t => setStatus h "original" :: t.map (fun d => setStatus d "duplicate")

/-- Python `list.sort(key=lambda x: x["filename"])`: a stable sort by
filename (insertion sort by a total preorder is stable, as is Python's
sort, so the results agree). -/
def sortByFilename (l : List Doc) : List Doc :=
  l.insertionSort (fun a b => filenameOf a ≤ filenameOf b)

/-- Grouping-key order of first appearance, as iterating the
`defaultdict` produces it (`src/main.py` lines 317–322). -/
def firstKeys (docs : List Doc) (t : String) : List (List String) :=
  ((docs.map (fun d => get_grouping_key d t)).reverse.dedup).reverse

/-- The grouping/dedup stage of `process_documents` for one document type
(`src/main.py` lines 316–327): cluster by grouping key, sort each cluster
by filename, mark the first `"original"` and the rest `"duplicate"`. -/
def process_documents_dedup (docs : List Doc) (t : String) : List Doc :=
  (firstKeys docs t).flatMap fun k =>
    markGroup (sortByFilename
      (docs.filter (fun d => get_grouping_key d t == k)))

/-- A string of the shape `MM/DD/<digits>`: zero-padded plausible month
and day followed by a non-empty digit year (four digits when the year is
1000–9999, fewer when a pattern without a year-range check lets a smaller
year through). -/
def DateShape (s : String) : Prop :=
  ∃ m d ys, 1 ≤ m ∧ m ≤ 12 ∧ 1 ≤ d ∧ d ≤ 31 ∧ ys ≠ [] ∧
    (∀ c ∈ ys, c.isDigit = true) ∧
    s = pad2 m ++ "/" ++ pad2 d ++ "/" ++ String.mk ys

/-- The depth-first visit order of `extract_from_labels`: each label
before its children, children before later siblings. -/
def dfs : List Label → List Label
  | [] => []
  | Label.mk n vs cs :: ls => Label.mk n vs cs :: (dfs cs ++ dfs ls)

/-- The sequence of `(field, value)` writes the traversal performs, in
depth-first visit order. -/
def writesOf (label_map : List (String × String)) (ls : List Label) :
    List (String × String) :=
  (dfs ls).filterMap (labelWrite label_map)

/-- Replay a write sequence onto a record. -/
def applyWrites (d : Doc) (ws : List (String × String)) : Doc :=
  ws.foldl (fun d p => dictSet d p.1 p.2) d

/-- A concrete record with `Meta.Type = "Income W-2"` and no skill named
`"IC - W2"` (used by the classifier and rejection witnesses). -/
def sampleW2Meta : RawRecord :=
  { meta := some { fileName := some "doc1", typeStr := some "Income W-2" },
    title := none,
    summary := [{ skillName := some "Other", labels := [] }] }

/-- A concrete valid paystub record with a configurable filename
(spec Scenario D, used by the dedup witness). -/
def samplePaystub (fn : String) : Doc :=
  [("document_type", "paystub"), ("filename", fn), ("docId", ""),
   ("employee_name", "X"), ("employer_name", "Acme"),
   ("pay_period_end_date", "01/15/2025"),
   ("pay_period_start_date", "01/01/2025"),
   ("year_to_date_earnings", "1000"), ("status", "original")]

/-- The set of output records of the dedup stage carrying a given
grouping key (the "cluster" of that key). -/
def clusterOf (docs : List Doc) (t : String) (k : List String) : List Doc :=
  (process_documents_dedup docs t).filter
    (fun d => get_grouping_key d t == k)

/-! ### Lemmas: trimming -/

/-- Dropping leading whitespace twice is the same as once: the right-trim
of a left-trimmed list still has no leading whitespace. -/
theorem trimChars_idem (l : List Char) : trimChars (trimChars l) = trimChars l := by
  unfold trimChars
  have hself : List.dropWhile Char.isWhitespace
      (List.rdropWhile Char.isWhitespace (List.dropWhile Char.isWhitespace l))
      = List.rdropWhile Char.isWhitespace (List.dropWhile Char.isWhitespace l) := by
    cases hB : List.rdropWhile Char.isWhitespace
        (List.dropWhile Char.isWhitespace l) with
    | nil => simp
    | cons b bt =>
      obtain ⟨t, ht⟩ := List.rdropWhile_prefix Char.isWhitespace
        (List.dropWhile Char.isWhitespace l)
      rw [hB] at ht
      have hhead : (List.dropWhile Char.isWhitespace l).head? = some b := by
        rw [← ht]
        simp
      have hb : b.isWhitespace = false := by
        have hmatch := List.head?_dropWhile_not Char.isWhitespace l
        rw [hhead] at hmatch
        exact hmatch
      simp [List.dropWhile_cons, hb]
  rw [hself, List.rdropWhile_idempotent]

/-- `strip` is idempotent. -/
theorem strip_idem (s : String) : strip (strip s) = strip s := by
  unfold strip
  exact congrArg String.mk (trimChars_idem s.data)

/-- A list without whitespace characters is unchanged by trimming. -/
theorem trimChars_of_no_ws (l : List Char)
    (h : ∀ c ∈ l, c.isWhitespace = false) : trimChars l = l := by
  unfold trimChars
  have h1 : List.dropWhile Char.isWhitespace l = l := by
    rw [List.dropWhile_eq_self_iff]
    intro hl
    simp only [Bool.not_eq_true]
    exact h _ (List.get_mem _ _ _)
  rw [h1, List.rdropWhile_eq_self_iff]
  intro hl
  simp only [Bool.not_eq_true]
  exact h _ (List.getLast_mem hl)

/-- A string without whitespace characters is unchanged by `strip`. -/
theorem strip_of_no_ws (s : String)
    (h : ∀ c ∈ s.data, c.isWhitespace = false) : strip s = s := by
  unfold strip
  cases s with
  | mk data => exact congrArg String.mk (trimChars_of_no_ws data h)

/-- C9: the sentinel-cleaning function `get_field_value` is idempotent:
cleaning an already-cleaned value returns it unchanged
(`src/main.py` lines 244–248). -/
theorem c9_clean_idempotent (v : String) :
    get_field_value (get_field_value v) = get_field_value v := by
  unfold get_field_value
  by_cases h : v = "" ∨ strip v ∈ ["", " ", "N/A", "null", "None"]
  · rw [if_pos h]
    decide
  · rw [if_neg h]
    push_neg at h
    have hne : ¬(strip v = "" ∨
        strip (strip v) ∈ ["", " ", "N/A", "null", "None"]) := by
      rw [strip_idem]
      push_neg
      refine ⟨?_, h.2⟩
      intro hempty
      exact h.2 (by rw [hempty]; simp)
    rw [if_neg hne, strip_idem]

/-! ### Lemmas: digit characters and decimal rendering -/

theorem isDigit_digitChar : ∀ a : Nat, a < 10 → (Nat.digitChar a).isDigit = true := by
  decide

theorem charVal_digitChar : ∀ a : Nat, a < 10 → charVal (Nat.digitChar a) = a := by
  decide

theorem not_ws_digitChar : ∀ a : Nat, a < 10 → (Nat.digitChar a).isWhitespace = false := by
  decide

/-- Every character `reprAux` emits is a decimal digit. -/
theorem reprAux_digits (fuel : Nat) :
    ∀ n, ∀ c ∈ reprAux fuel n, c.isDigit = true := by
  induction fuel with
  | zero => intro n c hc; simp [reprAux] at hc
  | succ fuel ih =>
    intro n c hc
    unfold reprAux at hc
    by_cases h : n < 10
    · rw [if_pos h] at hc
      simp at hc
      rw [hc]
      exact isDigit_digitChar n h
    · rw [if_neg h] at hc
      rw [List.mem_append] at hc
      rcases hc with hc | hc
      · exact ih _ c hc
      · simp at hc
        rw [hc]
        exact isDigit_digitChar _ (Nat.mod_lt n (by omega))

theorem natStr_digits (n : Nat) : ∀ c ∈ (natStr n).data, c.isDigit = true :=
  reprAux_digits (n + 1) n

theorem reprAux_ne_nil (fuel n : Nat) : reprAux (fuel + 1) n ≠ [] := by
  unfold reprAux
  by_cases h : n < 10
  · rw [if_pos h]; simp
  · rw [if_neg h]; simp

theorem natStr_ne_nil (n : Nat) : (natStr n).data ≠ [] := reprAux_ne_nil n n

/-- One-digit rendering. -/
theorem reprAux_one (fuel n : Nat) (h : n < 10) :
    reprAux (fuel + 1) n = [Nat.digitChar n] := by
  unfold reprAux
  rw [if_pos h]

/-- Two-digit rendering. -/
theorem reprAux_two (fuel n : Nat) (h1 : 10 ≤ n) (h2 : n < 100) :
    reprAux (fuel + 2) n = [Nat.digitChar (n / 10), Nat.digitChar (n % 10)] := by
  unfold reprAux
  rw [if_neg (by omega)]
  have hd : n / 10 < 10 := by omega
  rw [reprAux_one fuel _ hd]
  rfl

/-- `f"{m:02d}"` of a number below 100, as its two digit characters. -/
theorem pad2_data (m : Nat) (h : m < 100) :
    (pad2 m).data = [Nat.digitChar (m / 10), Nat.digitChar (m % 10)] := by
  unfold pad2 natStr
  by_cases h10 : m < 10
  · rw [if_pos h10]
    rw [reprAux_one m m h10]
    have : m / 10 = 0 := by omega
    rw [this]
    have : m % 10 = m := by omega
    rw [this]
    rfl
  · rw [if_neg h10]
    have : m + 1 = (m - 1) + 2 := by omega
    rw [this, reprAux_two (m - 1) m (by omega) h]

/-- Three-digit rendering. -/
theorem reprAux_three (fuel n : Nat) (h1 : 100 ≤ n) (h2 : n < 1000) :
    reprAux (fuel + 3) n = [Nat.digitChar (n / 100),
      Nat.digitChar (n / 10 % 10), Nat.digitChar (n % 10)] := by
  unfold reprAux
  rw [if_neg (by omega)]
  rw [reprAux_two fuel (n / 10) (by omega) (by omega)]
  have e : n / 10 / 10 = n / 100 := by
    rw [Nat.div_div_eq_div_mul]
  rw [e]
  rfl

/-- Four-digit rendering. -/
theorem reprAux_four (fuel n : Nat) (h1 : 1000 ≤ n) (h2 : n < 10000) :
    reprAux (fuel + 4) n = [Nat.digitChar (n / 1000), Nat.digitChar (n / 100 % 10),
      Nat.digitChar (n / 10 % 10), Nat.digitChar (n % 10)] := by
  unfold reprAux
  rw [if_neg (by omega)]
  rw [reprAux_three fuel (n / 10) (by omega) (by omega)]
  have e1 : n / 10 / 100 = n / 1000 := by
    rw [Nat.div_div_eq_div_mul]
  have e2 : n / 10 / 10 % 10 = n / 100 % 10 := by
    rw [Nat.div_div_eq_div_mul]
  rw [e1, e2]
  rfl

/-- `f"{y}"` of a four-digit number, as its four digit characters. -/
theorem natStr_four (y : Nat) (h1 : 1000 ≤ y) (h2 : y ≤ 9999) :
    (natStr y).data = [Nat.digitChar (y / 1000), Nat.digitChar (y / 100 % 10),
      Nat.digitChar (y / 10 % 10), Nat.digitChar (y % 10)] := by
  unfold natStr
  have hy : y + 1 = (y - 3) + 4 := by omega
  rw [hy, reprAux_four (y - 3) y h1 (by omega)]

/-! ### Lemmas: `parse_date` on canonical `MM/DD/YYYY` strings -/

/-- The character content of a zero-padded `MM/DD/YYYY` rendering. -/
theorem format_data (m d y : Nat) (hm : m < 100) (hd : d < 100)
    (hy1 : 1000 ≤ y) (hy2 : y ≤ 9999) :
    (formatMMDDYYYY m d y).data =
      [Nat.digitChar (m / 10), Nat.digitChar (m % 10), '/',
       Nat.digitChar (d / 10), Nat.digitChar (d % 10), '/',
       Nat.digitChar (y / 1000), Nat.digitChar (y / 100 % 10),
       Nat.digitChar (y / 10 % 10), Nat.digitChar (y % 10)] := by
  unfold formatMMDDYYYY
  rw [String.data_append, String.data_append, String.data_append,
    String.data_append]
  rw [pad2_data m hm, pad2_data d hd, natStr_four y hy1 hy2]
  rfl

/-- `matchTriple` on the ten characters of a canonical date recovers the
three numeric components. -/
theorem matchTriple_canonical (a b c d e f g h : Nat)
    (ha : a < 10) (hb : b < 10) (hc : c < 10) (hd : d < 10)
    (he : e < 10) (hf : f < 10) (hg : g < 10) (hh : h < 10) :
    matchTriple [Nat.digitChar a, Nat.digitChar b, '/', Nat.digitChar c,
      Nat.digitChar d, '/', Nat.digitChar e, Nat.digitChar f,
      Nat.digitChar g, Nat.digitChar h] =
      some (10 * a + b, 10 * c + d, 1000 * e + 100 * f + 10 * g + h) := by
  have ha' := isDigit_digitChar a ha
  have hb' := isDigit_digitChar b hb
  have hc' := isDigit_digitChar c hc
  have hd' := isDigit_digitChar d hd
  have he' := isDigit_digitChar e he
  have hf' := isDigit_digitChar f hf
  have hg' := isDigit_digitChar g hg
  have hh' := isDigit_digitChar h hh
  have hslash : ('/').isDigit = false := by decide
  simp only [matchTriple, spanOf, List.takeWhile_cons, List.dropWhile_cons,
    ha', hb', hc', hd', he', hf', hg', hh', hslash, if_true, if_false,
    Bool.false_eq_true, List.takeWhile_nil, List.dropWhile_nil, ite_true,
    ite_false]
  norm_num
  simp only [toNum, List.foldl, charVal_digitChar a ha, charVal_digitChar b hb,
    charVal_digitChar c hc, charVal_digitChar d hd, charVal_digitChar e he,
    charVal_digitChar f hf, charVal_digitChar g hg, charVal_digitChar h hh]
  omega

/-- The characters of a canonical date contain no whitespace. -/
theorem format_no_ws (m d y : Nat) (hm : m < 100) (hd : d < 100)
    (hy1 : 1000 ≤ y) (hy2 : y ≤ 9999) :
    ∀ c ∈ (formatMMDDYYYY m d y).data, c.isWhitespace = false := by
  rw [format_data m d y hm hd hy1 hy2]
  intro c hcmem
  simp only [List.mem_cons, List.not_mem_nil, or_false] at hcmem
  have hws : ('/').isWhitespace = false := by decide
  rcases hcmem with h | h | h | h | h | h | h | h | h | h <;> subst h
  · exact not_ws_digitChar _ (by omega)
  · exact not_ws_digitChar _ (by omega)
  · exact hws
  · exact not_ws_digitChar _ (by omega)
  · exact not_ws_digitChar _ (by omega)
  · exact hws
  · exact not_ws_digitChar _ (by omega)
  · exact not_ws_digitChar _ (by omega)
  · exact not_ws_digitChar _ (by omega)
  · exact not_ws_digitChar _ (by omega)

/-- Pattern 1 maps a canonical date to itself. -/
theorem pat1_canonical (m d y : Nat) (hm1 : 1 ≤ m) (hm2 : m ≤ 12)
    (hd1 : 1 ≤ d) (hd2 : d ≤ 31) (hy1 : 1000 ≤ y) (hy2 : y ≤ 9999) :
    pat1 (formatMMDDYYYY m d y) = some (formatMMDDYYYY m d y) := by
  unfold pat1
  rw [format_data m d y (by omega) (by omega) hy1 hy2]
  rw [matchTriple_canonical (m / 10) (m % 10) (d / 10) (d % 10) (y / 1000)
    (y / 100 % 10) (y / 10 % 10) (y % 10) (by omega) (by omega) (by omega)
    (by omega) (by omega) (by omega) (by omega) (by omega)]
  have em : 10 * (m / 10) + m % 10 = m := by omega
  have ed : 10 * (d / 10) + d % 10 = d := by omega
  have ey : 1000 * (y / 1000) + 100 * (y / 100 % 10) + 10 * (y / 10 % 10)
      + y % 10 = y := by omega
  rw [em, ed, ey]
  exact if_pos ⟨hm1, hm2, hd1, hd2, hy1, hy2⟩

/-- A canonical date is neither empty nor the sentinel. -/
theorem format_ne_trivial (m d y : Nat) (hm : m < 100) (hd : d < 100)
    (hy1 : 1000 ≤ y) (hy2 : y ≤ 9999) :
    ¬(formatMMDDYYYY m d y = "" ∨ formatMMDDYYYY m d y = "N/A") := by
  have hlen : (formatMMDDYYYY m d y).data.length = 10 := by
    rw [format_data m d y hm hd hy1 hy2]
    rfl
  rintro (h | h) <;> rw [h] at hlen <;> simp at hlen

/-- `parse_date` returns every canonical `MM/DD/YYYY` string unchanged,
for any fallback behaviour. -/
theorem parse_date_canonical (fb : String → Option String) (m d y : Nat)
    (hm1 : 1 ≤ m) (hm2 : m ≤ 12) (hd1 : 1 ≤ d) (hd2 : d ≤ 31)
    (hy1 : 1000 ≤ y) (hy2 : y ≤ 9999) :
    parse_date fb (formatMMDDYYYY m d y) = formatMMDDYYYY m d y := by
  unfold parse_date
  rw [if_neg (format_ne_trivial m d y (by omega) (by omega) hy1 hy2)]
  rw [strip_of_no_ws _ (format_no_ws m d y (by omega) (by omega) hy1 hy2)]
  simp only [pat1_canonical m d y hm1 hm2 hd1 hd2 hy1 hy2]

/-! ### Output shape of the date normalizer -/

/-- Every `formatMMDDYYYY` output with plausible month/day has the shape. -/
theorem DateShape_format (m d y : Nat) (hm1 : 1 ≤ m) (hm2 : m ≤ 12)
    (hd1 : 1 ≤ d) (hd2 : d ≤ 31) : DateShape (formatMMDDYYYY m d y) := by
  refine ⟨m, d, (natStr y).data, hm1, hm2, hd1, hd2, natStr_ne_nil y,
    natStr_digits y, ?_⟩
  unfold formatMMDDYYYY
  congr 1

/-- Month values stored in `month_names` are all in 1..12. -/
theorem monthLookup_range (s : String) (m : Nat) (h : monthLookup s = some m) :
    1 ≤ m ∧ m ≤ 12 := by
  unfold monthLookup at h
  cases hf : List.find? (fun p => p.1 == s) month_names with
  | none => rw [hf] at h; cases h
  | some p =>
    rw [hf] at h
    have hmem : p ∈ month_names := List.mem_of_find?_eq_some hf
    have hall : ∀ q ∈ month_names, 1 ≤ q.2 ∧ q.2 ≤ 12 := by decide
    have := hall p hmem
    simp at h
    omega

/-- Pattern 1 only returns strings of the canonical shape. -/
theorem pat1_shape {t r : String} (h : pat1 t = some r) : DateShape r := by
  unfold pat1 at h
  split at h
  · rename_i m d y heq
    split at h
    · rename_i hc
      cases h
      exact DateShape_format m d y hc.1 hc.2.1 hc.2.2.1 hc.2.2.2.1
    · cases h
  · cases h

/-- Pattern 2 only returns strings of the canonical shape. -/
theorem pat2_shape {t r : String} (h : pat2 t = some r) : DateShape r := by
  unfold pat2 at h
  split at h
  · rename_i d m y heq
    split at h
    · rename_i hc
      cases h
      exact DateShape_format m d y hc.1 hc.2.1 hc.2.2.1 hc.2.2.2.1
    · cases h
  · cases h

/-- Pattern 3 only returns strings of the canonical shape. -/
theorem pat3_shape {t r : String} (h : pat3 t = some r) : DateShape r := by
  unfold pat3 at h
  split at h
  · rename_i d w y heq
    split at h
    · rename_i m hm
      split at h
      · rename_i hd
        cases h
        have := monthLookup_range _ _ hm
        exact DateShape_format m d y this.1 this.2 hd.1 hd.2
      · cases h
    · cases h
  · cases h

/-- Pattern 4 only returns strings of the canonical shape. -/
theorem pat4_shape {t r : String} (h : pat4 t = some r) : DateShape r := by
  unfold pat4 at h
  split at h
  · rename_i w d y heq
    split at h
    · rename_i m hm
      split at h
      · rename_i hd
        cases h
        have := monthLookup_range _ _ hm
        exact DateShape_format m d y this.1 this.2 hd.1 hd.2
      · cases h
    · cases h
  · cases h

/-- Pattern 5 only returns strings of the canonical shape. -/
theorem pat5_shape {t r : String} (h : pat5 t = some r) : DateShape r := by
  unfold pat5 at h
  split at h
  · rename_i y m d heq
    split at h
    · rename_i hc
      cases h
      exact DateShape_format m d y hc.1 hc.2.1 hc.2.2.1 hc.2.2.2
    · cases h
  · cases h

/-- Any string of the canonical shape has at least 7 characters. -/
theorem DateShape_length {s : String} (h : DateShape s) : 7 ≤ s.data.length := by
  obtain ⟨m, d, ys, hm1, hm2, hd1, hd2, hne, _, heq⟩ := h
  have hdata : s.data = [Nat.digitChar (m / 10), Nat.digitChar (m % 10)]
      ++ ['/'] ++ [Nat.digitChar (d / 10), Nat.digitChar (d % 10)]
      ++ ['/'] ++ ys := by
    rw [heq]
    simp only [String.data_append]
    rw [pad2_data m (by omega), pad2_data d (by omega)]
  have hlen := congrArg List.length hdata
  simp only [List.length_append, List.length_cons, List.length_nil] at hlen
  have hys : 1 ≤ ys.length := List.length_pos.2 hne
  omega

/-! ### C3: total behaviour of the date normalizer -/

/-- C3 counterexample: the claim "parse_date returns either a string in
MM/DD/YYYY form or the original input unchanged" is false at the concrete
inputs `""` and `" x "`: the empty string comes back as the sentinel
`"N/A"` (which is not in date form and is not the input), and inputs that
no rule matches come back whitespace-stripped, not unchanged.  (`" x "`
reaches the `dateutil` fallback, which raises on `"x"`; the fallback is
therefore modelled as `none` there, after which line 85 returns the
stripped string.) -/
theorem c3_counterexample :
    parse_date (fun _ => none) "" = "N/A" ∧ ¬DateShape "N/A" ∧
      ("N/A" : String) ≠ "" ∧
      parse_date (fun _ => none) " x " = "x" ∧ ¬DateShape "x" ∧
      ("x" : String) ≠ " x " := by
  refine ⟨by decide, fun h => ?_, by decide, by decide, fun h => ?_, by decide⟩
  · have := DateShape_length h
    simp at this
  · have := DateShape_length h
    simp at this

/-- C3 (amended): for every fallback that itself only returns month/day
plausible `MM/DD/<digits>` strings (as `strftime "%m/%d/%Y"` does), and
for every input string, `parse_date` returns a string of that shape, or
the sentinel `"N/A"` (for empty or sentinel input), or the
whitespace-stripped input unchanged; being a total function it never
raises. -/
theorem c3_parse_date_output (fb : String → Option String)
    (hfb : ∀ t r, fb t = some r → DateShape r) (s : String) :
    DateShape (parse_date fb s) ∨ parse_date fb s = "N/A" ∨
      parse_date fb s = strip s := by
  unfold parse_date
  by_cases h0 : s = "" ∨ s = "N/A"
  · rw [if_pos h0]
    right; left; rfl
  · rw [if_neg h0]
    cases h1 : pat1 (strip s) with
    | some r => simp only [h1]; exact Or.inl (pat1_shape h1)
    | none =>
      simp only [h1]
      cases h2 : pat2 (strip s) with
      | some r => simp only [h2]; exact Or.inl (pat2_shape h2)
      | none =>
        simp only [h2]
        cases h3 : pat3 (strip s) with
        | some r => simp only [h3]; exact Or.inl (pat3_shape h3)
        | none =>
          simp only [h3]
          cases h4 : pat4 (strip s) with
          | some r => simp only [h4]; exact Or.inl (pat4_shape h4)
          | none =>
            simp only [h4]
            cases h5 : pat5 (strip s) with
            | some r => simp only [h5]; exact Or.inl (pat5_shape h5)
            | none =>
              simp only [h5]
              cases h6 : fb (strip s) with
              | some r => simp only [h6]; exact Or.inl (hfb _ _ h6)
              | none => simp [h6]

/-- C3 witness: the amended theorem applied at the fallback that always
fails and the concrete input `"hello"`. -/
theorem c3_witness :
    DateShape (parse_date (fun _ => none) "hello") ∨
      parse_date (fun _ => none) "hello" = "N/A" ∨
      parse_date (fun _ => none) "hello" = strip "hello" :=
  c3_parse_date_output (fun _ => none) (fun _ _ h => Option.noConfusion h) "hello"

/-! ### C4: range guards of patterns 1–5 -/

/-- C4 counterexample: the claim that every pattern produces a result only
when the year is 1000–9999 is false at the concrete input
`"08-august-0999"`: pattern 3 accepts year 999 and produces `"08/08/999"`
(not even a 4-digit rendering), rather than not producing a result. -/
theorem c4_counterexample :
    parse_date (fun _ => none) "08-august-0999" = "08/08/999" ∧
      ("08/08/999" : String) ≠ "08-august-0999" := by
  refine ⟨by decide, by decide⟩

/-- C4 (amended): the numeric-triple patterns 1 and 2 produce no result
unless month 1–12, day 1–31 and year 1000–9999 all hold, but patterns 3–5
enforce only the month (by name table or 1–12 guard) and the day 1–31
guard: the 4-digit year is used unchecked, and concrete years below 1000
do produce results. -/
theorem c4_rangechecks :
    (∀ t m d y, matchTriple t.data = some (m, d, y) →
      ¬(1 ≤ m ∧ m ≤ 12 ∧ 1 ≤ d ∧ d ≤ 31 ∧ 1000 ≤ y ∧ y ≤ 9999) →
      pat1 t = none) ∧
    (∀ t d m y, matchTriple t.data = some (d, m, y) →
      ¬(1 ≤ m ∧ m ≤ 12 ∧ 1 ≤ d ∧ d ≤ 31 ∧ 1000 ≤ y ∧ y ≤ 9999) →
      pat2 t = none) ∧
    (∀ t r, pat3 t = some r → ∃ d w y m,
      matchDayWordYear t.data = some (d, w, y) ∧
      monthLookup (lowerStr w) = some m ∧ 1 ≤ m ∧ m ≤ 12 ∧ 1 ≤ d ∧ d ≤ 31 ∧
      r = formatMMDDYYYY m d y) ∧
    (∀ t r, pat4 t = some r → ∃ w d y m,
      matchWordDayYear t.data = some (w, d, y) ∧
      monthLookup (lowerStr w) = some m ∧ 1 ≤ m ∧ m ≤ 12 ∧ 1 ≤ d ∧ d ≤ 31 ∧
      r = formatMMDDYYYY m d y) ∧
    (∀ t r, pat5 t = some r → ∃ y m d, matchISO t.data = some (y, m, d) ∧
      1 ≤ m ∧ m ≤ 12 ∧ 1 ≤ d ∧ d ≤ 31 ∧ r = formatMMDDYYYY m d y) ∧
    pat3 "08-august-0999" = some "08/08/999" ∧
    pat4 "August 08, 0999" = some "08/08/999" ∧
    pat5 "0999-01-02" = some "01/02/999" := by
  refine ⟨?_, ?_, ?_, ?_, ?_, by decide, by decide, by decide⟩
  · intro t m d y h hn
    unfold pat1
    rw [h]
    exact if_neg hn
  · intro t d m y h hn
    unfold pat2
    rw [h]
    exact if_neg hn
  · intro t r h
    unfold pat3 at h
    split at h
    · rename_i d w y heq
      split at h
      · rename_i m hm
        split at h
        · rename_i hd
          cases h
          obtain ⟨h1, h2⟩ := monthLookup_range _ _ hm
          exact ⟨d, w, y, m, heq, hm, h1, h2, hd.1, hd.2, rfl⟩
        · cases h
      · cases h
    · cases h
  · intro t r h
    unfold pat4 at h
    split at h
    · rename_i w d y heq
      split at h
      · rename_i m hm
        split at h
        · rename_i hd
          cases h
          obtain ⟨h1, h2⟩ := monthLookup_range _ _ hm
          exact ⟨w, d, y, m, heq, hm, h1, h2, hd.1, hd.2, rfl⟩
        · cases h
      · cases h
    · cases h
  · intro t r h
    unfold pat5 at h
    split at h
    · rename_i y m d heq
      split at h
      · rename_i hc
        cases h
        exact ⟨y, m, d, heq, hc.1, hc.2.1, hc.2.2.1, hc.2.2.2, rfl⟩
      · cases h
    · cases h

/-- C4 witness: the amended theorem's range guards applied at concrete
out-of-range triples. -/
theorem c4_witness : pat1 "13/13/2025" = none ∧ pat2 "32/01/2025" = none :=
  ⟨c4_rangechecks.1 "13/13/2025" 13 13 2025 (by decide) (by decide),
   c4_rangechecks.2.1 "32/01/2025" 32 1 2025 (by decide) (by decide)⟩

/-! ### C5: reachability of pattern 2 -/

/-- C5 counterexample: the claim that the pattern-2 branch is unreachable
(removing it never changes the result) is false at the concrete input
`"29-02-2025"`: pattern 1 matches the triple structurally but fails its
range check (month position 29), so pattern 2 fires and yields
`"02/29/2025"`, while the function without pattern 2 returns the input
unchanged.  (The `dateutil` fallback raises on Feb 29 2025, a nonexistent
calendar day, so it is modelled as `none` here.) -/
theorem c5_counterexample :
    parse_date (fun _ => none) "29-02-2025" = "02/29/2025" ∧
      parse_date_no2 (fun _ => none) "29-02-2025" = "29-02-2025" ∧
      ("02/29/2025" : String) ≠ "29-02-2025" := by
  refine ⟨by decide, by decide, by decide⟩

/-- C5 (amended): pattern 2 is reachable, not unreachable: whenever the
numeric triple matches with first component 13–31 (so pattern 1's month
check fails) and second component 1–12 and year 1000–9999, `parse_date`
returns pattern 2's DD-MM-YYYY reading, for any fallback. -/
theorem c5_rule2_reachable (fb : String → Option String) (s : String)
    (d m y : Nat) (h : matchTriple (strip s).data = some (d, m, y))
    (hd1 : 13 ≤ d) (hd2 : d ≤ 31) (hm1 : 1 ≤ m) (hm2 : m ≤ 12)
    (hy1 : 1000 ≤ y) (hy2 : y ≤ 9999) :
    parse_date fb s = formatMMDDYYYY m d y := by
  have h0 : ¬(s = "" ∨ s = "N/A") := by
    rintro (rfl | rfl)
    · have he : matchTriple (strip "").data = none := by decide
      rw [he] at h
      cases h
    · have he : matchTriple (strip "N/A").data = none := by decide
      rw [he] at h
      cases h
  unfold parse_date
  rw [if_neg h0]
  have hp1 : pat1 (strip s) = none := by
    unfold pat1
    rw [h]
    exact if_neg (by omega)
  have hp2 : pat2 (strip s) = some (formatMMDDYYYY m d y) := by
    unfold pat2
    rw [h]
    exact if_pos ⟨hm1, hm2, by omega, hd2, hy1, hy2⟩
  simp only [hp1, hp2]

/-- C5 witness: the amended theorem applied at the concrete input
`"25-12-2025"`. -/
theorem c5_witness :
    parse_date (fun _ => none) "25-12-2025" = formatMMDDYYYY 12 25 2025 :=
  c5_rule2_reachable (fun _ => none) "25-12-2025" 25 12 2025 (by decide)
    (by decide) (by decide) (by decide) (by decide) (by decide) (by decide)

/-! ### C8: idempotence on canonical dates -/

/-- C8: date normalization is idempotent on its canonical form: every
zero-padded `MM/DD/YYYY` string with month 1–12, day 1–31 and year
1000–9999 (exactly the strings `formatMMDDYYYY m d y` in those ranges) is
returned unchanged by `parse_date`, and therefore
`parse_date (parse_date s) = parse_date s` whenever `parse_date s` is such
a string — for any fallback behaviour. -/
theorem c8_idempotent_on_canonical (fb : String → Option String)
    (m d y : Nat) (hm1 : 1 ≤ m) (hm2 : m ≤ 12) (hd1 : 1 ≤ d) (hd2 : d ≤ 31)
    (hy1 : 1000 ≤ y) (hy2 : y ≤ 9999) :
    parse_date fb (formatMMDDYYYY m d y) = formatMMDDYYYY m d y ∧
    ∀ s, parse_date fb s = formatMMDDYYYY m d y →
      parse_date fb (parse_date fb s) = parse_date fb s := by
  constructor
  · exact parse_date_canonical fb m d y hm1 hm2 hd1 hd2 hy1 hy2
  · intro s hs
    rw [hs]
    exact parse_date_canonical fb m d y hm1 hm2 hd1 hd2 hy1 hy2

/-- C8 witness: the theorem applied at the canonical date `"01/02/2025"`. -/
theorem c8_witness :
    parse_date (fun _ => none) (formatMMDDYYYY 1 2 2025) = formatMMDDYYYY 1 2 2025
      ∧ formatMMDDYYYY 1 2 2025 = "01/02/2025" :=
  ⟨(c8_idempotent_on_canonical (fun _ => none) 1 2 2025 (by decide) (by decide)
      (by decide) (by decide) (by decide) (by decide)).1, by decide⟩

/-! ### C2: extraction is last-writer-wins over the depth-first order -/

theorem dictGet_dictSet (d : Doc) (k v k' : String) :
    dictGet (dictSet d k v) k' = if k' = k then some v else dictGet d k' := by
  induction d with
  | nil =>
    by_cases h : k' = k
    · subst h
      simp [dictSet, dictGet]
    · have hb : (k == k') = false := beq_eq_false_iff_ne.mpr (Ne.symm h)
      simp [dictSet, dictGet, List.find?, hb, h]
  | cons hd tl ih =>
    obtain ⟨k1, v1⟩ := hd
    by_cases h1 : k1 = k
    · subst h1
      by_cases h : k' = k1
      · subst h
        simp [dictSet, dictGet, List.find?]
      · have hb : (k1 == k') = false := beq_eq_false_iff_ne.mpr (Ne.symm h)
        simp [dictSet, dictGet, List.find?, hb, h]
    · by_cases h : k' = k1
      · subst h
        have hke : ¬(k' = k) := fun hh => h1 (hh ▸ rfl)
        simp [dictSet, dictGet, List.find?, if_neg h1, hke]
      · have hb : (k1 == k') = false := beq_eq_false_iff_ne.mpr (Ne.symm h)
        simp only [dictSet, if_neg h1, dictGet, List.find?, hb]
        simpa [dictGet] using ih

theorem applyWrites_append (d : Doc) (ws1 ws2 : List (String × String)) :
    applyWrites d (ws1 ++ ws2) = applyWrites (applyWrites d ws1) ws2 := by
  unfold applyWrites
  rw [List.foldl_append]

/-- Replaying one label's optional write is `applyLabel`. -/
theorem applyWrites_optWrite (label_map : List (String × String))
    (l : Label) (d : Doc) :
    applyWrites d (labelWrite label_map l).toList = applyLabel label_map l d := by
  unfold applyLabel
  cases labelWrite label_map l with
  | some w => rfl
  | none => rfl

/-- The write sequence of a visited label and the rest of the forest. -/
theorem writesOf_cons (label_map : List (String × String))
    (n : Option String) (vs : List (Option String)) (cs ls : List Label) :
    writesOf label_map (Label.mk n vs cs :: ls)
      = (labelWrite label_map (Label.mk n vs cs)).toList
        ++ (writesOf label_map cs ++ writesOf label_map ls) := by
  unfold writesOf
  simp only [dfs]
  rw [List.filterMap_cons, List.filterMap_append]
  cases labelWrite label_map (Label.mk n vs cs) <;> simp

/-- The recursive extraction replays exactly the depth-first write
sequence. -/
theorem extract_eq_applyWrites (label_map : List (String × String))
    (ls : List Label) (d : Doc) :
    extract_from_labels label_map ls d = applyWrites d (writesOf label_map ls) := by
  induction ls, d using extract_from_labels.induct label_map with
  | case1 d =>
    simp only [extract_from_labels, writesOf, dfs, List.filterMap_nil,
      applyWrites, List.foldl_nil]
  | case2 n vs cs ls d ih1 ih2 =>
    rw [writesOf_cons, applyWrites_append, applyWrites_append,
      applyWrites_optWrite]
    simp only [extract_from_labels]
    rw [ih2, ih1]

/-- The field value after replaying a write sequence is the last write to
the field, or the prior value when no write touches it. -/
theorem dictGet_applyWrites (ws : List (String × String)) :
    ∀ (d : Doc) (fld : String),
    dictGet (applyWrites d ws) fld =
      (ws.filter (fun w => w.1 == fld)).foldl (fun _ w => some w.2)
        (dictGet d fld) := by
  induction ws with
  | nil => intro d fld; rfl
  | cons w ws ih =>
    intro d fld
    obtain ⟨g, v⟩ := w
    show dictGet (applyWrites (dictSet d g v) ws) fld = _
    rw [ih, dictGet_dictSet]
    by_cases h : g = fld
    · subst h
      simp [List.filter_cons]
    · have hb : (g == fld) = false := beq_eq_false_iff_ne.mpr h
      simp [List.filter_cons, hb, Ne.symm h]

/-- Folding a constant-update over a list keeps the last element (or the
initial value on the empty list). -/
theorem foldl_lastWrite (l : List (String × String)) :
    ∀ init : Option String,
    l.foldl (fun _ w => some w.2) init =
      match l.getLast? with
      | some w => some w.2
      | none => init := by
  induction l with
  | nil => intro init; rfl
  | cons a l ih =>
    intro init
    rw [List.foldl_cons, ih]
    cases hl : l.getLast? with
    | some w =>
      have hln : l ≠ [] := by
        intro hnil
        rw [hnil] at hl
        cases hl
      obtain ⟨b, l', rfl⟩ := List.exists_cons_of_ne_nil hln
      rw [List.getLast?_cons_cons, hl]
    | none =>
      have hnil : l = [] := List.getLast?_eq_none_iff.mp hl
      subst hnil
      rw [List.getLast?_singleton]

/-- C2: field extraction is last-writer-wins over the depth-first
traversal: for every label map, label forest, starting record and field,
the extracted field value equals the value of the last write to that
field in depth-first visit order — where a visited label writes exactly
when its name is mapped and its `Values` hold a first cleaned
non-sentinel value (`labelWrite`) — and keeps its prior value when no
visited label writes to it. -/
theorem c2_extraction_last_writer_wins (label_map : List (String × String))
    (ls : List Label) (d0 : Doc) (fld : String) :
    dictGet (extract_from_labels label_map ls d0) fld =
      match ((writesOf label_map ls).filter (fun w => w.1 == fld)).getLast? with
      | some w => some w.2
      | none => dictGet d0 fld := by
  rw [extract_eq_applyWrites, dictGet_applyWrites, foldl_lastWrite]

/-! ### C6 and C7: classifier and missing-skill rejection -/

/-- The substring scan only produces the three known types. -/
theorem skillSubstringType_range {sk : Skill} {t : String}
    (h : skillSubstringType sk = some t) :
    t = "paystub" ∨ t = "w2" ∨ t = "1120" := by
  unfold skillSubstringType at h
  dsimp only at h
  split_ifs at h
  · exact Or.inr (Or.inr (Option.some.inj h).symm)
  · exact Or.inr (Or.inl (Option.some.inj h).symm)
  · exact Or.inl (Option.some.inj h).symm

theorem skillSubstringScan_range {r : RawRecord} {t : String}
    (h : skillSubstringScan r = some t) :
    t = "paystub" ∨ t = "w2" ∨ t = "1120" := by
  obtain ⟨sk, _, hsk⟩ := List.exists_of_findSome?_eq_some h
  exact skillSubstringType_range hsk

/-- The exact-name scan only produces the three known types. -/
theorem skillExactType_range {sk : Skill} {t : String}
    (h : skillExactType sk = some t) :
    t = "paystub" ∨ t = "w2" ∨ t = "1120" := by
  unfold skillExactType at h
  split_ifs at h
  · exact Or.inr (Or.inr (Option.some.inj h).symm)
  · exact Or.inr (Or.inl (Option.some.inj h).symm)
  · exact Or.inl (Option.some.inj h).symm

theorem skillExactScan_range {r : RawRecord} {t : String}
    (h : skillExactScan r = some t) :
    t = "paystub" ∨ t = "w2" ∨ t = "1120" := by
  obtain ⟨sk, _, hsk⟩ := List.exists_of_findSome?_eq_some h
  exact skillExactType_range hsk

/-- C6: the type classifier is total with range `{paystub, w2, 1120}` and
resolves in the documented order: w2 indicators in `Meta.Type`/`Title`
first, then 1120 indicators there, then the case-insensitive skill-name
substring scan in `Summary` order, then the exact skill-name scan, then
the `"paystub"` default.  (Being a total Lean function it cannot raise;
the Python `except` branch, unreachable in the typed model, returns the
same default.) -/
theorem c6_classifier_total_and_ordered (r : RawRecord) :
    (identify_document_type r = "paystub" ∨ identify_document_type r = "w2" ∨
      identify_document_type r = "1120") ∧
    (hasW2Indicator r = true → identify_document_type r = "w2") ∧
    (hasW2Indicator r = false → has1120Indicator r = true →
      identify_document_type r = "1120") ∧
    (∀ t, hasW2Indicator r = false → has1120Indicator r = false →
      skillSubstringScan r = some t → identify_document_type r = t) ∧
    (∀ t, hasW2Indicator r = false → has1120Indicator r = false →
      skillSubstringScan r = none → skillExactScan r = some t →
      identify_document_type r = t) ∧
    (hasW2Indicator r = false → has1120Indicator r = false →
      skillSubstringScan r = none → skillExactScan r = none →
      identify_document_type r = "paystub") := by
  unfold identify_document_type
  by_cases h1 : hasW2Indicator r
  · simp [h1]
  · simp only [Bool.not_eq_true] at h1
    by_cases h2 : has1120Indicator r
    · simp [h1, h2]
    · simp only [Bool.not_eq_true] at h2
      cases h3 : skillSubstringScan r with
      | some t =>
        have hr := skillSubstringScan_range h3
        simp [h1, h2, h3]
        exact hr
      | none =>
        cases h4 : skillExactScan r with
        | some t =>
          have hr := skillExactScan_range h4
          simp [h1, h2, h3, h4]
          exact hr
        | none => simp [h1, h2, h3, h4]

/-- C6 witness: the classifier theorem applied at a concrete record whose
metadata carries a w2 indicator. -/
theorem c6_witness : identify_document_type sampleW2Meta = "w2" :=
  (c6_classifier_total_and_ordered sampleW2Meta).2.1 (by decide)

/-- C7: a record whose `Meta.Type` is `"Income W-2"` and whose `Summary`
has no skill of exact name `"IC - W2"` is classified `w2` and rejected as
`(None, "w2", "Required skill 'IC - W2' not found")` — the reason cites
the missing skill. -/
theorem c7_w2_missing_skill (fb : String → Option String) (r : RawRecord)
    (fn : String) (hmeta : r.meta.bind MetaInfo.typeStr = some "Income W-2")
    (hskill : ∀ sk ∈ r.summary, sk.skillName ≠ some "IC - W2") :
    extract_document_data fb r fn =
      (none, "w2", some "Required skill 'IC - W2' not found") := by
  have h1 : hasW2Indicator r = true := by
    unfold hasW2Indicator metaType
    rw [hmeta]
    have hc : containsSub "w-2" (lowerStr (Option.getD (some "Income W-2") ""))
        = true := by decide
    simp only [List.any_cons, List.any_nil, hc, Bool.true_or, Bool.or_true,
      Bool.or_false]
  have hw2 : identify_document_type r = "w2" := by
    unfold identify_document_type
    rw [h1]
    rfl
  have hesn : expectedSkillName "w2" = "IC - W2" := by decide
  have hfind : r.summary.find?
      (fun sk => sk.skillName == some "IC - W2") = none := by
    rw [List.find?_eq_none]
    intro sk hsk
    simp only [beq_iff_eq]
    exact hskill sk hsk
  unfold extract_document_data
  rw [hw2]
  simp only [hesn, hfind]
  decide

/-- C7 witness: the rejection theorem applied at the concrete record
`sampleW2Meta`. -/
theorem c7_witness :
    extract_document_data (fun _ => none) sampleW2Meta "f" =
      (none, "w2", some "Required skill 'IC - W2' not found") :=
  c7_w2_missing_skill (fun _ => none) sampleW2Meta "f" (by decide) (by decide)

/-! ### C10: totality and fail-soft behaviour of the grouping key -/

theorem lookupAll_length (d : Doc) :
    ∀ (fs : List String) (vs : List String),
    lookupAll d fs = some vs → vs.length = fs.length := by
  intro fs
  induction fs with
  | nil =>
    intro vs h
    injection h with h2
    subst h2
    rfl
  | cons f fs ih =>
    intro vs h
    unfold lookupAll at h
    cases hf : dictGet d f with
    | none => rw [hf] at h; cases h
    | some v =>
      rw [hf] at h
      cases hl : lookupAll d fs with
      | none => rw [hl] at h; cases h
      | some ws =>
        rw [hl] at h
        injection h with h2
        subst h2
        simp [ih ws hl]

theorem lookupAll_none_iff (d : Doc) (fs : List String) :
    lookupAll d fs = none ↔ ∃ f ∈ fs, dictGet d f = none := by
  induction fs with
  | nil => simp [lookupAll]
  | cons f fs ih =>
    unfold lookupAll
    cases hf : dictGet d f with
    | none => simp [hf]
    | some v =>
      cases hl : lookupAll d fs with
      | none =>
        simp only [hf, hl]
        constructor
        · intro _
          obtain ⟨g, hg, hgn⟩ := ih.mp hl
          exact ⟨g, List.mem_cons_of_mem f hg, hgn⟩
        · intro _
          trivial
      | some vs =>
        simp only [hf, hl]
        constructor
        · intro h
          cases h
        · rintro ⟨g, hg, hgn⟩
          rcases List.mem_cons.mp hg with rfl | hg2
          · rw [hf] at hgn
            cases hgn
          · rw [ih.mpr ⟨g, hg2, hgn⟩] at hl
            cases hl

/-- C10: `get_grouping_key` is total and fail-soft: it always returns a
tuple of the type's arity (5 for paystub, 3 for w2, 4 otherwise); when
every identity field is present it is the cleaned field values; when any
identity-field lookup fails it is the all-`"N/A"` tuple, so any two
records of a type with a missing identity field share one grouping key. -/
theorem c10_grouping_key_total (d : Doc) (t : String) :
    ((get_grouping_key d t).length
        = if t = "paystub" then 5 else if t = "w2" then 3 else 4) ∧
    (∀ vs, lookupAll d (identityFields t) = some vs →
      get_grouping_key d t = vs.map get_field_value) ∧
    ((∃ fld ∈ identityFields t, dictGet d fld = none) →
      get_grouping_key d t = (identityFields t).map (fun _ => "N/A")) ∧
    (∀ d2, (∃ fld ∈ identityFields t, dictGet d fld = none) →
      (∃ fld ∈ identityFields t, dictGet d2 fld = none) →
      get_grouping_key d t = get_grouping_key d2 t) := by
  refine ⟨?_, ?_, ?_, ?_⟩
  · have hlen : (get_grouping_key d t).length = (identityFields t).length := by
      unfold get_grouping_key
      cases hl : lookupAll d (identityFields t) with
      | some vs => simp [lookupAll_length d _ vs hl]
      | none => simp
    rw [hlen]
    unfold identityFields
    split_ifs <;> rfl
  · intro vs h
    unfold get_grouping_key
    rw [h]
  · intro hex
    unfold get_grouping_key
    rw [(lookupAll_none_iff d _).mpr hex]
  · intro d2 h1 h2
    unfold get_grouping_key
    rw [(lookupAll_none_iff d _).mpr h1, (lookupAll_none_iff d2 _).mpr h2]

/-- C10 witness: the theorem applied at the empty record and type `w2`. -/
theorem c10_witness :
    get_grouping_key [] "w2" = (identityFields "w2").map (fun _ => "N/A") :=
  (c10_grouping_key_total [] "w2").2.2.1 ⟨"employee_name", by decide, by decide⟩

/-! ### C1: grouping/dedup assigns one original per cluster -/

theorem find?_filter_status (d : Doc) (k : String) (hk : k ≠ "status") :
    List.find? (fun p => p.1 == k) (d.filter (fun p => !(p.1 == "status")))
      = List.find? (fun p => p.1 == k) d := by
  induction d with
  | nil => rfl
  | cons hd tl ih =>
    obtain ⟨k1, v1⟩ := hd
    by_cases h1 : k1 = "status"
    · subst h1
      have hb : ("status" == k) = false := beq_eq_false_iff_ne.mpr (Ne.symm hk)
      simp [List.filter_cons, List.find?, hb, ih]
    · have hb1 : (k1 == "status") = false := beq_eq_false_iff_ne.mpr h1
      simp only [List.filter_cons, hb1, Bool.not_false, if_true]
      cases hb : (k1 == k) with
      | true => simp [List.find?, hb]
      | false => simp [List.find?, hb, ih]

theorem dictGet_setStatus_ne (d : Doc) (s k : String) (hk : k ≠ "status") :
    dictGet (setStatus d s) k = dictGet d k := by
  unfold setStatus dictGet
  rw [List.find?_append, find?_filter_status d k hk]
  have hb : ("status" == k) = false := beq_eq_false_iff_ne.mpr (Ne.symm hk)
  cases hfind : List.find? (fun p => p.1 == k) d with
  | some p => simp
  | none => simp [List.find?, hb]

theorem find?_filter_status_self (d : Doc) :
    List.find? (fun p => p.1 == "status")
      (d.filter (fun p => !(p.1 == "status"))) = none := by
  rw [List.find?_eq_none]
  intro x hx
  have hmem := (List.mem_filter.mp hx).2
  simp only [Bool.not_eq_true'] at hmem
  simp [hmem]

theorem dictGet_setStatus_self (d : Doc) (s : String) :
    dictGet (setStatus d s) "status" = some s := by
  unfold setStatus dictGet
  rw [List.find?_append, find?_filter_status_self]
  simp [List.find?]

theorem lookupAll_congr (d1 d2 : Doc) (fs : List String)
    (h : ∀ f ∈ fs, dictGet d1 f = dictGet d2 f) :
    lookupAll d1 fs = lookupAll d2 fs := by
  induction fs with
  | nil => rfl
  | cons f fs ih =>
    unfold lookupAll
    rw [h f (List.mem_cons_self f fs),
      ih (fun g hg => h g (List.mem_cons_of_mem f hg))]

theorem identityFields_ne_status (t : String) :
    ∀ fld ∈ identityFields t, fld ≠ "status" := by
  unfold identityFields
  split_ifs <;> decide

theorem key_setStatus (d : Doc) (s t : String) :
    get_grouping_key (setStatus d s) t = get_grouping_key d t := by
  unfold get_grouping_key
  rw [lookupAll_congr (setStatus d s) d (identityFields t)
    (fun f hf => dictGet_setStatus_ne d s f (identityFields_ne_status t f hf))]

theorem filenameOf_setStatus (d : Doc) (s : String) :
    filenameOf (setStatus d s) = filenameOf d := by
  unfold filenameOf
  rw [dictGet_setStatus_ne d s _ (by decide)]

/-- Every record of a marked cluster keeps the cluster's grouping key. -/
theorem markGroup_key_const (l : List Doc) (t : String) (k : List String)
    (h : ∀ y ∈ l, get_grouping_key y t = k) :
    ∀ x ∈ markGroup l, get_grouping_key x t = k := by
  intro x hx
  cases l with
  | nil => cases hx
  | cons hd tl =>
    unfold markGroup at hx
    rcases List.mem_cons.mp hx with rfl | hx2
    · rw [key_setStatus]
      exact h hd (List.mem_cons_self hd tl)
    · obtain ⟨y, hy, rfl⟩ := List.mem_map.mp hx2
      rw [key_setStatus]
      exact h y (List.mem_cons_of_mem _ hy)

theorem filter_flatMap (ks : List (List String)) (g : List String → List Doc)
    (p : Doc → Bool) :
    (ks.flatMap g).filter p = ks.flatMap (fun k => (g k).filter p) := by
  induction ks with
  | nil => rfl
  | cons k ks ih => simp [List.flatMap_cons, List.filter_append, ih]

theorem flatMap_eq_single (ks : List (List String))
    (g : List String → List Doc) (k : List String) (hnd : ks.Nodup)
    (hk : k ∈ ks) (hz : ∀ k2 ∈ ks, k2 ≠ k → g k2 = []) :
    ks.flatMap g = g k := by
  induction ks with
  | nil => cases hk
  | cons a ks ih =>
    rcases List.mem_cons.mp hk with rfl | hk2
    · have hnotin : k ∉ ks := (List.nodup_cons.mp hnd).1
      have hrest : ks.flatMap g = [] := by
        apply List.flatMap_eq_nil_iff.mpr
        intro x hx
        exact hz x (List.mem_cons_of_mem k hx) (fun he => hnotin (he ▸ hx))
      simp [List.flatMap_cons, hrest]
    · have hak : a ≠ k := fun he => (List.nodup_cons.mp hnd).1 (he ▸ hk2)
      have ha : g a = [] := hz a (List.mem_cons_self a ks) hak
      simp only [List.flatMap_cons, ha, List.nil_append]
      exact ih (List.nodup_cons.mp hnd).2 hk2
        (fun k2 h2 => hz k2 (List.mem_cons_of_mem a h2))

theorem firstKeys_nodup (docs : List Doc) (t : String) :
    (firstKeys docs t).Nodup := by
  unfold firstKeys
  exact List.nodup_reverse.mpr (List.nodup_dedup _)

theorem mem_firstKeys (docs : List Doc) (t : String) (k : List String) :
    k ∈ firstKeys docs t ↔
      k ∈ docs.map (fun d => get_grouping_key d t) := by
  unfold firstKeys
  simp [List.mem_reverse, List.mem_dedup]

theorem sortByFilename_perm (l : List Doc) : (sortByFilename l).Perm l :=
  List.perm_insertionSort _ l

theorem sortByFilename_sorted (l : List Doc) :
    List.Sorted (fun a b : Doc => filenameOf a ≤ filenameOf b)
      (sortByFilename l) := by
  haveI : IsTotal Doc (fun a b : Doc => filenameOf a ≤ filenameOf b) :=
    ⟨fun a b => le_total _ _⟩
  haveI : IsTrans Doc (fun a b : Doc => filenameOf a ≤ filenameOf b) :=
    ⟨fun _ _ _ h1 h2 => le_trans h1 h2⟩
  exact List.sorted_insertionSort _ l

/-- The cluster of a key occurring in the input is exactly its marked,
filename-sorted group. -/
theorem clusterOf_eq (docs : List Doc) (t : String) (k : List String)
    (hk : ∃ d0 ∈ docs, get_grouping_key d0 t = k) :
    clusterOf docs t k
      = markGroup (sortByFilename
          (docs.filter (fun d => get_grouping_key d t == k))) := by
  obtain ⟨d0, hd0, hd0k⟩ := hk
  have hall : ∀ k2, ∀ y ∈ sortByFilename
      (docs.filter (fun d => get_grouping_key d t == k2)),
      get_grouping_key y t = k2 := by
    intro k2 y hy
    have hy2 : y ∈ docs.filter (fun d => get_grouping_key d t == k2) :=
      (sortByFilename_perm _).mem_iff.mp hy
    exact beq_iff_eq.mp (List.mem_filter.mp hy2).2
  unfold clusterOf process_documents_dedup
  rw [filter_flatMap]
  have hmem : k ∈ firstKeys docs t :=
    (mem_firstKeys docs t k).mpr
      (List.mem_map.mpr ⟨d0, hd0, hd0k⟩)
  have hzero : ∀ k2 ∈ firstKeys docs t, k2 ≠ k →
      (markGroup (sortByFilename
        (docs.filter (fun d => get_grouping_key d t == k2)))).filter
          (fun d => get_grouping_key d t == k) = [] := by
    intro k2 _ hne
    apply List.filter_eq_nil_iff.mpr
    intro x hx
    have hkey := markGroup_key_const _ t k2 (hall k2) x hx
    simp [hkey, beq_eq_false_iff_ne.mpr hne]
  rw [flatMap_eq_single _ _ k (firstKeys_nodup docs t) hmem hzero]
  apply List.filter_eq_self.mpr
  intro x hx
  have hkey := markGroup_key_const _ t k (hall k) x hx
  simp [hkey]

/-- C1: after the grouping/dedup stage, every non-empty cluster (the
output records sharing one grouping key) contains exactly one record
marked `"original"`; every record is marked `"original"` or
`"duplicate"`; and the original's filename is lexicographically least in
the cluster.  The stage is a pure function of the input list, so the
assignment is deterministic. -/
theorem c1_one_original_per_cluster (docs : List Doc) (t : String)
    (k : List String) (hk : ∃ d0 ∈ docs, get_grouping_key d0 t = k) :
    (clusterOf docs t k).countP
        (fun d => dictGet d "status" == some "original") = 1 ∧
    (∀ d ∈ clusterOf docs t k, dictGet d "status" = some "original" ∨
      dictGet d "status" = some "duplicate") ∧
    (∀ d ∈ clusterOf docs t k, dictGet d "status" = some "original" →
      ∀ d2 ∈ clusterOf docs t k, filenameOf d ≤ filenameOf d2) := by
  obtain ⟨d0, hd0, hd0k⟩ := hk
  rw [clusterOf_eq docs t k ⟨d0, hd0, hd0k⟩]
  have hsorted := sortByFilename_sorted
    (docs.filter (fun d => get_grouping_key d t == k))
  have hmem0 : d0 ∈ sortByFilename
      (docs.filter (fun d => get_grouping_key d t == k)) := by
    apply (sortByFilename_perm _).mem_iff.mpr
    exact List.mem_filter.mpr ⟨hd0, by simp [hd0k]⟩
  cases hL : sortByFilename
      (docs.filter (fun d => get_grouping_key d t == k)) with
  | nil => rw [hL] at hmem0; cases hmem0
  | cons h tl =>
    rw [hL] at hsorted
    unfold markGroup
    have hhead : dictGet (setStatus h "original") "status" = some "original" :=
      dictGet_setStatus_self h "original"
    have htail : ∀ x ∈ tl.map (fun d => setStatus d "duplicate"),
        dictGet x "status" = some "duplicate" := by
      intro x hx
      obtain ⟨y, _, rfl⟩ := List.mem_map.mp hx
      exact dictGet_setStatus_self y "duplicate"
    refine ⟨?_, ?_, ?_⟩
    · rw [List.countP_cons]
      have h1 : (dictGet (setStatus h "original") "status"
          == some "original") = true := by simp [hhead]
      have h0 : (tl.map (fun d => setStatus d "duplicate")).countP
          (fun d => dictGet d "status" == some "original") = 0 := by
        apply List.countP_eq_zero.mpr
        intro x hx
        rw [htail x hx]
        decide
      rw [h0, h1]
      simp
    · intro d hd
      rcases List.mem_cons.mp hd with rfl | hd2
      · exact Or.inl hhead
      · exact Or.inr (htail d hd2)
    · intro d hd hdorig d2 hd2
      have hdhead : d = setStatus h "original" := by
        rcases List.mem_cons.mp hd with rfl | hd3
        · rfl
        · rw [htail d hd3] at hdorig
          exact absurd hdorig (by decide)
      subst hdhead
      rw [filenameOf_setStatus]
      rcases List.mem_cons.mp hd2 with rfl | hd3
      · rw [filenameOf_setStatus]
      · obtain ⟨y, hy, rfl⟩ := List.mem_map.mp hd3
        rw [filenameOf_setStatus]
        exact List.rel_of_sorted_cons hsorted y hy

/-- C1 witness: the dedup theorem applied to the two-record Scenario D
batch (`"b.json"` and `"a.json"` with identical fields). -/
theorem c1_witness :
    (clusterOf [samplePaystub "b.json", samplePaystub "a.json"] "paystub"
        ["X", "Acme", "01/01/2025", "01/15/2025", "1000"]).countP
        (fun d => dictGet d "status" == some "original") = 1 :=
  (c1_one_original_per_cluster
    [samplePaystub "b.json", samplePaystub "a.json"] "paystub"
    ["X", "Acme", "01/01/2025", "01/15/2025", "1000"]
    ⟨samplePaystub "b.json", by decide, by decide⟩).1

end JsonExtraction
